import Mathlib

/-!
Verification of the `bcw-gateway` reverse proxy (`src/gateway.js`).

The gateway's pure logic is shallowly embedded here:
strings are `List Char`, JS `String.prototype.includes` / regex
`replace` with the `g` (and optionally `i`) flags are modelled by
executable functions on character lists, parsed query strings and the
mock table are association lists, and the per-request dispatcher,
admin handlers and the response interceptor are total functions that
return the observable outcome (response bodies, stored snippets,
updated tables).
-/

namespace Gateway

/-- Character data of a string literal, used to write `List Char` literals. -/
def S (s : String) : List Char := s.data

/-- JS `String.prototype.toLowerCase` (ASCII, as used by the gateway). -/
def lowerStr (s : List Char) : List Char := s.map Char.toLower

/-- Does `hay` start with `needle`?  (Helper for `containsL`.) -/
def startsL : List Char → List Char → Bool
  | [], _ => true
  | _ :: _, [] => false
  | p :: ps, c :: cs => p == c && startsL ps cs

/-- JS `hay.includes(needle)`: `needle` occurs as a contiguous substring. -/
def containsL (needle : List Char) : List Char → Bool
  | [] => needle.isEmpty
  | c :: t => startsL needle (c :: t) || containsL needle t

/-- One character of a pattern match; `ci` selects case-insensitive
comparison (regex `i` flag). -/
def charMatch (ci : Bool) (p c : Char) : Bool :=
  if ci then p.toLower == c.toLower else p == c

/-- Does `s` start with pattern `pat` (under flag `ci`)? -/
def matchL (ci : Bool) : List Char → List Char → Bool
  | [], _ => true
  | _ :: _, [] => false
  | p :: ps, c :: cs => charMatch ci p c && matchL ci ps cs

/-- Fuelled worker for global regex replacement: scans left to right,
replacing each non-overlapping occurrence of `pat` by `repl`.  The fuel
is an upper bound on the scan length; `replaceAllG` supplies enough. -/
def replFuel (ci : Bool) (pat repl : List Char) : Nat → List Char → List Char
  | _, [] => []
  | 0, s => s
  | fuel + 1, c :: rest =>
    if matchL ci pat (c :: rest) then
      repl ++ replFuel ci pat repl fuel ((c :: rest).drop pat.length)
    else
      c :: replFuel ci pat repl fuel rest

/-- JS `s.replace(/pat/g, repl)` (with `/i` when `ci` is true), for a
literal, non-empty pattern. -/
def replaceAllG (ci : Bool) (pat repl s : List Char) : List Char :=
  replFuel ci pat repl s.length s

/-- The fixed upstream targets of the gateway (`TARGETS` in gateway.js). -/
inductive Target
  | pixelgun
  | fyber
  | bcw
deriving DecidableEq

/-- `pickTarget` (gateway.js lines 86-97): route on the lowercased Host
header and the raw request URL; first match wins, BlockCity default. -/
def pickTarget (host pathStr : List Char) : Target :=
  let h := lowerStr host
  if containsL (S "pixelgun") h
      || containsL (S "/get_files_info.php") pathStr
      || containsL (S "/advert_bcw") pathStr then
    Target.pixelgun
  else if containsL (S "fyber") h
      || containsL (S "sdk-config") pathStr
      || containsL (S "video-cache") pathStr then
    Target.fyber
  else
    Target.bcw

/-- `isLikelyAndroid` (gateway.js lines 99-104): the user agent and the
original URL are both lowercased before the substring tests. -/
def isLikelyAndroid (ua origUrl : List Char) : Bool :=
  let u := lowerStr ua
  let o := lowerStr origUrl
  containsL (S "android") u
    || containsL (S "platform=android") o
    || containsL (S "_android.json") o

/-- Case-insensitive substring test, used to state the amended C6. -/
def containsCI (needle hay : List Char) : Bool :=
  containsL (lowerStr needle) (lowerStr hay)

/-! ### Association lists

JS plain objects keyed by strings (the parsed query object produced by
`url.parse(..., true)` and the `dynamicMocks` table) are modelled as
association lists with unique keys: property read, property assignment
(overwrite-in-place or append) and `delete`. -/

/-- JS property read `obj[k]` (`undefined` becomes `none`). -/
def lookupKV {β : Type} : List (String × β) → String → Option β
  | [], _ => none
  | (k', v) :: rest, k => if k' = k then some v else lookupKV rest k

/-- JS property assignment `obj[k] = v`: overwrites in place, else appends. -/
def setKV {β : Type} : List (String × β) → String → β → List (String × β)
  | [], k, v => [(k, v)]
  | (k', v') :: rest, k, v =>
    if k' = k then (k, v) :: rest else (k', v') :: setKV rest k v

/-- JS `delete obj[k]`. -/
def delKV {β : Type} : List (String × β) → String → List (String × β)
  | [], _ => []
  | (k', v') :: rest, k =>
    if k' = k then delKV rest k else (k', v') :: delKV rest k

/-- JS truthiness of a possibly-absent string property: `undefined` and
the empty string are falsy. -/
def truthyOpt : Option String → Bool
  | none => false
  | some s => s != ""

/-- Stage of the `onProxyReq` query rewrite (gateway.js lines 148-150):
the three unconditional assignments `platform`, `os_name`, `client`. -/
def rqForce (q : List (String × String)) : List (String × String) :=
  setKV (setKV (setKV q "platform" "ios") "os_name" "iPhone OS") "client" "ios"

/-- Stage of the query rewrite (gateway.js line 151):
`if (!parsed.query.phone_model) parsed.query.phone_model = 'iPad15,7'`. -/
def rqPhone (q : List (String × String)) : List (String × String) :=
  if truthyOpt (lookupKV q "phone_model") then q
  else setKV q "phone_model" "iPad15,7"

/-- Stage of the query rewrite (gateway.js line 152):
`if (!parsed.query.manufacturer) parsed.query.manufacturer = 'Apple Inc.'`. -/
def rqManu (q : List (String × String)) : List (String × String) :=
  if truthyOpt (lookupKV q "manufacturer") then q
  else setKV q "manufacturer" "Apple Inc."

/-- Stage of the query rewrite (gateway.js line 153): `parsed.query.signature
= parsed.query.signature ? parsed.query.signature : 'ANDROID_BYPASS_SIGNATURE'`. -/
def rqSig (q : List (String × String)) : List (String × String) :=
  setKV q "signature"
    (match lookupKV q "signature" with
     | some s => if s != "" then s else "ANDROID_BYPASS_SIGNATURE"
     | none => "ANDROID_BYPASS_SIGNATURE")

/-- The query-string rewrite of `onProxyReq` (gateway.js lines 146-157),
acting on the parsed query object, as the composition of its four
statement groups in program order. -/
def rewriteQuery (q : List (String × String)) : List (String × String) :=
  rqSig (rqManu (rqPhone (rqForce q)))

/-! ### Mock table, admin handlers, dispatcher -/

/-- A `dynamicMocks` entry (gateway.js line 45): status, headers, and the
body as the string that `res.send` will emit (a string body is sent
verbatim; a non-string body is sent as its `JSON.stringify` rendering,
which is fixed once the entry is installed). -/
structure MockEntry where
  status : Nat
  headers : List (String × String)
  body : String
deriving DecidableEq

/-- Express `req.path`: the request URL up to (excluding) the first `?`. -/
def pathOf (u : String) : String :=
  String.mk (u.data.takeWhile (fun c => c != '?'))

/-- Observable outcome of the per-request pipeline: either a mock served
with no upstream round-trip, or forwarding to a resolved target. -/
inductive Outcome
  | mock (status : Nat) (headers : List (String × String)) (body : String)
  | forward (t : Target)
deriving DecidableEq

/-- The dispatcher (gateway.js lines 75-83 and 107-127): consult the
mock table keyed on `req.path` first; on a hit answer the mock and skip
proxying, otherwise resolve the upstream target and forward. -/
def dispatch (mocks : List (String × MockEntry)) (host url : String) : Outcome :=
  match lookupKV mocks (pathOf url) with
  | some m => Outcome.mock m.status m.headers m.body
  | none => Outcome.forward (pickTarget host.data url.data)

/-- Parsed JSON body of an admin request, with each field optional
(modelling string-valued `path`, numeric `status`, object `headers`,
and `body` by the string it will be sent as). -/
structure AdminMockBody where
  path : Option String
  status : Option Nat
  headers : Option (List (String × String))
  body : Option String

/-- Admin handler response: `res.json(.ok)` or `res.status(400).json(...)`. -/
inductive AdminResp
  | okTrue
  | errMissingPath
deriving DecidableEq

/-- HTTP status code of an admin handler response. -/
def respStatus : AdminResp → Nat
  | AdminResp.okTrue => 200
  | AdminResp.errMissingPath => 400

/-- The MockEntry built by `POST /_admin/mock` from its body, with the
destructuring defaults of gateway.js line 48. -/
def entryOf (b : AdminMockBody) : MockEntry :=
  { status := b.status.getD 200
    headers := b.headers.getD [("Content-Type", "application/json")]
    body := b.body.getD "\x7b\x7d" }

/-- `POST /_admin/mock` (gateway.js lines 47-53): 400 when `path` is
falsy (absent or empty), otherwise install/overwrite the entry. -/
def adminSetMock (mocks : List (String × MockEntry)) (b : AdminMockBody) :
    List (String × MockEntry) × AdminResp :=
  match b.path with
  | none => (mocks, AdminResp.errMissingPath)
  | some p =>
    if p = "" then (mocks, AdminResp.errMissingPath)
    else (setKV mocks p (entryOf b), AdminResp.okTrue)

/-- `POST /_admin/mock/clear` (gateway.js lines 55-61). -/
def adminClearMock (mocks : List (String × MockEntry)) (b : AdminMockBody) :
    List (String × MockEntry) × AdminResp :=
  match b.path with
  | none => (mocks, AdminResp.errMissingPath)
  | some p =>
    if p = "" then (mocks, AdminResp.errMissingPath)
    else (delKV mocks p, AdminResp.okTrue)

/-! ### Recent-request ring buffer -/

/-- `pushRecent` (gateway.js lines 29-35): append, then shift off the
oldest entry when the length exceeds `storeMax`. -/
def pushRecent {α : Type} (storeMax : Nat) (buf : List α) (e : α) : List α :=
  let b := buf ++ [e]
  if storeMax < b.length then b.drop 1 else b

/-! ### Response interceptor -/

/-- Content-type test of gateway.js lines 205-206. -/
def isTextualCT (ct : List Char) : Bool :=
  containsL (S "application/json") ct || containsL (S "text/") ct

/-- The three reverse substitutions applied, in order, to an Android
client's textual response body (gateway.js lines 199-202). -/
def rewriteBody (b : List Char) : List Char :=
  replaceAllG true (S "ipad") (S "Pixel 6")
    (replaceAllG true (S "iphone os") (S "Android")
      (replaceAllG false (S "_ios.json") (S "_android.json") b))

/-- Observable output of the response interceptor: the snippet stored in
the ring-buffer entry and the body returned to the client. -/
structure ProxyResOut where
  snippet : List Char
  clientBody : List Char
deriving DecidableEq

/-- `onProxyRes` (gateway.js lines 174-216): record the entry (snippet
taken from the upstream buffer, truncated to 2000 chars when verbose,
else 500), then, for an Android client with a non-empty body, return the
rewritten body when the content-type is textual. -/
def onProxyRes (verbose android : Bool) (ct body : List Char) : ProxyResOut :=
  let bodySnippet := body
  let stored :=
    if verbose then bodySnippet.take 2000
    else if bodySnippet.isEmpty then [] else bodySnippet.take 500
  let cb :=
    if android && !bodySnippet.isEmpty then
      (if isTextualCT ct then rewriteBody bodySnippet else bodySnippet)
    else bodySnippet
  { snippet := stored, clientBody := cb }

/-! ### Association-list lemmas -/

theorem lookupKV_setKV {β : Type} (l : List (String × β)) (k k' : String) (v : β) :
    lookupKV (setKV l k v) k' = if k = k' then some v else lookupKV l k' := by
  induction l with
  | nil => by_cases h : k = k' <;> simp [setKV, lookupKV, h]
  | cons hd t ih =>
    obtain ⟨k0, v0⟩ := hd
    by_cases h0 : k0 = k
    · subst h0
      by_cases h1 : k0 = k'
      · subst h1; simp [setKV, lookupKV]
      · simp [setKV, lookupKV, h1]
    · by_cases h1 : k0 = k'
      · subst h1
        have hk : k ≠ k0 := fun h => h0 h.symm
        simp [setKV, lookupKV, h0, hk]
      · simp [setKV, lookupKV, h0, h1, ih]

theorem setKV_eq_of_lookup {β : Type} {l : List (String × β)} {k : String} {v : β}
    (h : lookupKV l k = some v) : setKV l k v = l := by
  induction l with
  | nil => simp [lookupKV] at h
  | cons hd t ih =>
    obtain ⟨k0, v0⟩ := hd
    by_cases h0 : k0 = k
    · subst h0
      simp [lookupKV] at h
      simp [setKV, h]
    · simp [lookupKV, h0] at h
      simp [setKV, h0, ih h]

/-! ### Query-rewrite lemmas -/

theorem lookupKV_rqForce (q : List (String × String)) (k : String) :
    lookupKV (rqForce q) k =
      if "client" = k then some "ios"
      else if "os_name" = k then some "iPhone OS"
      else if "platform" = k then some "ios"
      else lookupKV q k := by
  simp [rqForce, lookupKV_setKV]

theorem lookupKV_rqPhone_ne {q : List (String × String)} {k : String}
    (h : "phone_model" ≠ k) : lookupKV (rqPhone q) k = lookupKV q k := by
  unfold rqPhone
  split <;> simp [lookupKV_setKV, h]

theorem lookupKV_rqManu_ne {q : List (String × String)} {k : String}
    (h : "manufacturer" ≠ k) : lookupKV (rqManu q) k = lookupKV q k := by
  unfold rqManu
  split <;> simp [lookupKV_setKV, h]

theorem lookupKV_rqSig_ne {q : List (String × String)} {k : String}
    (h : "signature" ≠ k) : lookupKV (rqSig q) k = lookupKV q k := by
  simp [rqSig, lookupKV_setKV, h]

theorem lookupKV_rqPhone_self (q : List (String × String)) :
    lookupKV (rqPhone q) "phone_model" =
      if truthyOpt (lookupKV q "phone_model") then lookupKV q "phone_model"
      else some "iPad15,7" := by
  unfold rqPhone
  split <;> simp_all [lookupKV_setKV]

theorem lookupKV_rqManu_self (q : List (String × String)) :
    lookupKV (rqManu q) "manufacturer" =
      if truthyOpt (lookupKV q "manufacturer") then lookupKV q "manufacturer"
      else some "Apple Inc." := by
  unfold rqManu
  split <;> simp_all [lookupKV_setKV]

theorem lookupKV_rqSig_self (q : List (String × String)) :
    lookupKV (rqSig q) "signature" =
      some (match lookupKV q "signature" with
            | some s => if s != "" then s else "ANDROID_BYPASS_SIGNATURE"
            | none => "ANDROID_BYPASS_SIGNATURE") := by
  simp [rqSig, lookupKV_setKV]

theorem rq_platform (q : List (String × String)) :
    lookupKV (rewriteQuery q) "platform" = some "ios" := by
  rw [rewriteQuery, lookupKV_rqSig_ne (by decide), lookupKV_rqManu_ne (by decide),
    lookupKV_rqPhone_ne (by decide), lookupKV_rqForce]
  simp

theorem rq_os_name (q : List (String × String)) :
    lookupKV (rewriteQuery q) "os_name" = some "iPhone OS" := by
  rw [rewriteQuery, lookupKV_rqSig_ne (by decide), lookupKV_rqManu_ne (by decide),
    lookupKV_rqPhone_ne (by decide), lookupKV_rqForce]
  simp

theorem rq_client (q : List (String × String)) :
    lookupKV (rewriteQuery q) "client" = some "ios" := by
  rw [rewriteQuery, lookupKV_rqSig_ne (by decide), lookupKV_rqManu_ne (by decide),
    lookupKV_rqPhone_ne (by decide), lookupKV_rqForce]
  simp

theorem rq_phone_model (q : List (String × String)) :
    lookupKV (rewriteQuery q) "phone_model" =
      if truthyOpt (lookupKV q "phone_model") then lookupKV q "phone_model"
      else some "iPad15,7" := by
  rw [rewriteQuery, lookupKV_rqSig_ne (by decide), lookupKV_rqManu_ne (by decide),
    lookupKV_rqPhone_self]
  rw [lookupKV_rqForce]
  simp

theorem rq_manufacturer (q : List (String × String)) :
    lookupKV (rewriteQuery q) "manufacturer" =
      if truthyOpt (lookupKV q "manufacturer") then lookupKV q "manufacturer"
      else some "Apple Inc." := by
  rw [rewriteQuery, lookupKV_rqSig_ne (by decide), lookupKV_rqManu_self]
  rw [lookupKV_rqPhone_ne (by decide), lookupKV_rqForce]
  simp

theorem rq_signature (q : List (String × String)) :
    lookupKV (rewriteQuery q) "signature" =
      some (match lookupKV q "signature" with
            | some s => if s != "" then s else "ANDROID_BYPASS_SIGNATURE"
            | none => "ANDROID_BYPASS_SIGNATURE") := by
  rw [rewriteQuery, lookupKV_rqSig_self]
  rw [lookupKV_rqManu_ne (by decide), lookupKV_rqPhone_ne (by decide), lookupKV_rqForce]
  simp

theorem rq_phone_model_truthy (q : List (String × String)) :
    truthyOpt (lookupKV (rewriteQuery q) "phone_model") = true := by
  rw [rq_phone_model]
  split
  · assumption
  · decide

theorem rq_manufacturer_truthy (q : List (String × String)) :
    truthyOpt (lookupKV (rewriteQuery q) "manufacturer") = true := by
  rw [rq_manufacturer]
  split
  · assumption
  · decide

theorem rq_signature_nonempty (q : List (String × String)) :
    ∃ s, lookupKV (rewriteQuery q) "signature" = some s ∧ s ≠ "" := by
  rw [rq_signature]
  cases h : lookupKV q "signature" with
  | none => exact ⟨"ANDROID_BYPASS_SIGNATURE", rfl, by decide⟩
  | some s =>
    by_cases hs : s = ""
    · subst hs; exact ⟨"ANDROID_BYPASS_SIGNATURE", by simp, by decide⟩
    · refine ⟨s, ?_, hs⟩
      simp [hs]

/-- The query rewrite is idempotent as a function on parsed queries. -/
theorem rewriteQuery_idem (q : List (String × String)) :
    rewriteQuery (rewriteQuery q) = rewriteQuery q := by
  have hforce : rqForce (rewriteQuery q) = rewriteQuery q := by
    unfold rqForce
    rw [setKV_eq_of_lookup (rq_platform q), setKV_eq_of_lookup (rq_os_name q),
      setKV_eq_of_lookup (rq_client q)]
  have hphone : rqPhone (rewriteQuery q) = rewriteQuery q := by
    unfold rqPhone
    rw [rq_phone_model_truthy]
    simp
  have hmanu : rqManu (rewriteQuery q) = rewriteQuery q := by
    unfold rqManu
    rw [rq_manufacturer_truthy]
    simp
  have hsig : rqSig (rewriteQuery q) = rewriteQuery q := by
    obtain ⟨s, hs, hne⟩ := rq_signature_nonempty q
    unfold rqSig
    rw [hs]
    have hbne : (s != "") = true := by simp [hne]
    simp only [hbne, if_pos]
    exact setKV_eq_of_lookup hs
  conv_lhs => rw [rewriteQuery, hforce, hphone, hmanu, hsig]

/-- C3 counterexample: the claim's "existing values are preserved" for
`phone_model` fails — a query where `phone_model` is present with the
empty value has it overwritten with the default, since the code tests
JS truthiness, not key presence. -/
theorem rewriteQuery_claim_counterexample :
    ¬ (∀ (q : List (String × String)) (v : String),
        lookupKV q "phone_model" = some v →
        lookupKV (rewriteQuery q) "phone_model" = some v) := by
  intro h
  have h2 := h [("phone_model", "")] "" (by decide)
  exact absurd h2 (by decide)

/-- C3 amended: the forwarded query has `platform=ios`, `os_name=iPhone OS`
and `client=ios` unconditionally; `phone_model` and `manufacturer` get the
fixed defaults exactly when absent or empty (non-empty existing values are
preserved); `signature` gets the fixed placeholder exactly when absent or
empty (a non-empty existing signature is preserved); the rewrite is a
total function and fails no request. -/
theorem rewriteQuery_spec (q : List (String × String)) :
    lookupKV (rewriteQuery q) "platform" = some "ios"
    ∧ lookupKV (rewriteQuery q) "os_name" = some "iPhone OS"
    ∧ lookupKV (rewriteQuery q) "client" = some "ios"
    ∧ (truthyOpt (lookupKV q "phone_model") = false →
        lookupKV (rewriteQuery q) "phone_model" = some "iPad15,7")
    ∧ (∀ v, lookupKV q "phone_model" = some v → v ≠ "" →
        lookupKV (rewriteQuery q) "phone_model" = some v)
    ∧ (truthyOpt (lookupKV q "manufacturer") = false →
        lookupKV (rewriteQuery q) "manufacturer" = some "Apple Inc.")
    ∧ (∀ v, lookupKV q "manufacturer" = some v → v ≠ "" →
        lookupKV (rewriteQuery q) "manufacturer" = some v)
    ∧ (truthyOpt (lookupKV q "signature") = false →
        lookupKV (rewriteQuery q) "signature" = some "ANDROID_BYPASS_SIGNATURE")
    ∧ (∀ v, lookupKV q "signature" = some v → v ≠ "" →
        lookupKV (rewriteQuery q) "signature" = some v) := by
  refine ⟨rq_platform q, rq_os_name q, rq_client q, ?_, ?_, ?_, ?_, ?_, ?_⟩
  · intro h
    rw [rq_phone_model, h]
    simp
  · intro v hv hne
    rw [rq_phone_model, hv]
    have : truthyOpt (some v) = true := by simp [truthyOpt, hne]
    simp [this]
  · intro h
    rw [rq_manufacturer, h]
    simp
  · intro v hv hne
    have : truthyOpt (lookupKV q "manufacturer") = true := by
      rw [hv]; simp [truthyOpt, hne]
    rw [rq_manufacturer, this]
    simp [hv]
  · intro h
    rw [rq_signature]
    cases hv : lookupKV q "signature" with
    | none => rfl
    | some s =>
      rw [hv] at h
      simp [truthyOpt] at h
      simp [h]
  · intro v hv hne
    rw [rq_signature, hv]
    simp [hne]

/-- Witness for C3's amended claim at concrete queries. -/
theorem rewriteQuery_spec_witness :
    lookupKV (rewriteQuery [("signature", "s1"), ("phone_model", "")]) "platform"
        = some "ios"
    ∧ lookupKV (rewriteQuery [("signature", "s1"), ("phone_model", "")]) "phone_model"
        = some "iPad15,7"
    ∧ lookupKV (rewriteQuery [("signature", "s1"), ("phone_model", "")]) "signature"
        = some "s1"
    ∧ lookupKV (rewriteQuery [("signature", "s1"), ("phone_model", "")]) "manufacturer"
        = some "Apple Inc." :=
  ⟨(rewriteQuery_spec [("signature", "s1"), ("phone_model", "")]).1,
    (rewriteQuery_spec [("signature", "s1"), ("phone_model", "")]).2.2.2.1 (by decide),
    (rewriteQuery_spec [("signature", "s1"), ("phone_model", "")]).2.2.2.2.2.2.2.2
      "s1" (by decide) (by decide),
    (rewriteQuery_spec [("signature", "s1"), ("phone_model", "")]).2.2.2.2.2.1
      (by decide)⟩

/-- C7: the outbound query rewrite is idempotent — applying it twice
yields the same canonical query parameters (same keys mapped to the same
values) as applying it once. -/
theorem rewriteQuery_idempotent (q : List (String × String)) (k : String) :
    lookupKV (rewriteQuery (rewriteQuery q)) k = lookupKV (rewriteQuery q) k := by
  rw [rewriteQuery_idem]

/-- C2: the Target Resolver is a total function on (host, path); its rules
apply in first-match-wins order — Pixelgun when the lowercased host
contains "pixelgun" or the path contains "/get_files_info.php" or
"/advert_bcw"; else Fyber when the host contains "fyber" or the path
contains "sdk-config" or "video-cache"; else BlockCity — and in
particular any path containing "/get_files_info.php" resolves to
Pixelgun regardless of host. -/
theorem pickTarget_first_match_rules (host pathStr : List Char) :
    (containsL (S "pixelgun") (lowerStr host) = true
        ∨ containsL (S "/get_files_info.php") pathStr = true
        ∨ containsL (S "/advert_bcw") pathStr = true →
      pickTarget host pathStr = Target.pixelgun)
    ∧ (¬ (containsL (S "pixelgun") (lowerStr host) = true
          ∨ containsL (S "/get_files_info.php") pathStr = true
          ∨ containsL (S "/advert_bcw") pathStr = true) →
        (containsL (S "fyber") (lowerStr host) = true
          ∨ containsL (S "sdk-config") pathStr = true
          ∨ containsL (S "video-cache") pathStr = true) →
      pickTarget host pathStr = Target.fyber)
    ∧ (¬ (containsL (S "pixelgun") (lowerStr host) = true
          ∨ containsL (S "/get_files_info.php") pathStr = true
          ∨ containsL (S "/advert_bcw") pathStr = true) →
        ¬ (containsL (S "fyber") (lowerStr host) = true
          ∨ containsL (S "sdk-config") pathStr = true
          ∨ containsL (S "video-cache") pathStr = true) →
      pickTarget host pathStr = Target.bcw)
    ∧ (containsL (S "/get_files_info.php") pathStr = true →
      pickTarget host pathStr = Target.pixelgun) := by
  refine ⟨?_, ?_, ?_, ?_⟩
  · intro h
    have hb : (containsL (S "pixelgun") (lowerStr host)
        || containsL (S "/get_files_info.php") pathStr
        || containsL (S "/advert_bcw") pathStr) = true := by
      rcases h with h | h | h <;> simp [h]
    simp [pickTarget, hb]
  · intro h1 h2
    simp only [not_or, Bool.not_eq_true] at h1
    obtain ⟨ha, hb, hc⟩ := h1
    have h2b : (containsL (S "fyber") (lowerStr host)
        || containsL (S "sdk-config") pathStr
        || containsL (S "video-cache") pathStr) = true := by
      rcases h2 with h | h | h <;> simp [h]
    simp [pickTarget, ha, hb, hc, h2b]
  · intro h1 h2
    simp only [not_or, Bool.not_eq_true] at h1 h2
    obtain ⟨ha, hb, hc⟩ := h1
    obtain ⟨hd, he, hf⟩ := h2
    simp [pickTarget, ha, hb, hc, hd, he, hf]
  · intro h
    simp [pickTarget, h]

/-- Witness for C2 at concrete inputs, exercising all four rules. -/
theorem pickTarget_first_match_rules_witness :
    pickTarget (S "pixelgun.example") (S "/x") = Target.pixelgun
    ∧ pickTarget (S "engine.fyber.com") (S "/x") = Target.fyber
    ∧ pickTarget (S "bcwserver.com") (S "/play") = Target.bcw
    ∧ pickTarget (S "bcwserver.com") (S "/get_files_info.php?p=1") = Target.pixelgun :=
  ⟨(pickTarget_first_match_rules (S "pixelgun.example") (S "/x")).1
      (Or.inl (by decide)),
    (pickTarget_first_match_rules (S "engine.fyber.com") (S "/x")).2.1
      (by decide) (Or.inl (by decide)),
    (pickTarget_first_match_rules (S "bcwserver.com") (S "/play")).2.2.1
      (by decide) (by decide),
    (pickTarget_first_match_rules (S "bcwserver.com")
      (S "/get_files_info.php?p=1")).2.2.2 (by decide)⟩

/-- C6 counterexample: the claim's iff fails as stated, because the code
also lowercases the URL: for user-agent "" and URL "PLATFORM=ANDROID"
the classifier answers true although the URL does not contain the
literal "platform=android" or "_android.json" and the user-agent does
not contain "android". -/
theorem isLikelyAndroid_claim_counterexample :
    ¬ (∀ ua url : List Char,
        isLikelyAndroid ua url = true ↔
          (containsCI (S "android") ua = true
            ∨ containsL (S "platform=android") url = true
            ∨ containsL (S "_android.json") url = true)) := by
  intro h
  have h2 := (h (S "") (S "PLATFORM=ANDROID")).mp (by decide)
  rcases h2 with h2 | h2 | h2 <;> revert h2 <;> decide

/-- C6 amended: `isLikelyAndroid ua url` is true iff the user-agent
contains "android" case-insensitively, or the url contains
"platform=android" case-insensitively, or the url contains
"_android.json" case-insensitively; it is a total boolean function of
exactly these two strings. -/
theorem isLikelyAndroid_iff (ua url : List Char) :
    isLikelyAndroid ua url = true ↔
      (containsCI (S "android") ua = true
        ∨ containsCI (S "platform=android") url = true
        ∨ containsCI (S "_android.json") url = true) := by
  have e1 : lowerStr (S "android") = S "android" := by decide
  have e2 : lowerStr (S "platform=android") = S "platform=android" := by decide
  have e3 : lowerStr (S "_android.json") = S "_android.json" := by decide
  simp [isLikelyAndroid, containsCI, e1, e2, e3, Bool.or_eq_true, or_assoc]

/-! ### Ring-buffer lemmas -/

theorem foldl_pushRecent {α : Type} (storeMax : Nat) :
    ∀ (es buf : List α), buf.length ≤ storeMax →
      es.foldl (pushRecent storeMax) buf =
        (buf ++ es).drop (buf.length + es.length - storeMax) := by
  intro es
  induction es with
  | nil =>
    intro buf h
    simp [Nat.sub_eq_zero_of_le h]
  | cons e es ih =>
    intro buf h
    simp only [List.foldl_cons]
    by_cases hc : storeMax < (buf ++ [e]).length
    · have hlen : buf.length = storeMax := by
        simp [List.length_append] at hc
        omega
      have hpr : pushRecent storeMax buf e = (buf ++ [e]).drop 1 := by
        simp only [pushRecent]
        rw [if_pos hc]
      have hb' : ((buf ++ [e]).drop 1).length ≤ storeMax := by
        simp [List.length_append]
        omega
      rw [hpr, ih _ hb']
      have hXlen : (1 : Nat) ≤ (buf ++ [e]).length := by simp
      rw [← List.drop_append_of_le_length hXlen, List.drop_drop]
      rw [show buf ++ e :: es = (buf ++ [e]) ++ es by simp]
      congr 1
      simp [List.length_append, List.length_drop]
      omega
    · have hpr : pushRecent storeMax buf e = buf ++ [e] := by
        simp only [pushRecent]
        rw [if_neg hc]
      have hb' : (buf ++ [e]).length ≤ storeMax := by omega
      rw [hpr, ih _ hb']
      rw [show buf ++ e :: es = (buf ++ [e]) ++ es by simp]
      congr 1
      simp [List.length_append]
      omega

/-- C4: starting from the empty store, the ring buffer's length never
exceeds `storeMax`; after any sequence of records the buffer holds
exactly the most recent `storeMax` entries in insertion order (so after
`storeMax + k` records, exactly the last `storeMax`); and a single
record on an in-bound buffer appends and evicts precisely the oldest
entry exactly when the append would exceed `storeMax` (strict FIFO). -/
theorem pushRecent_ring_buffer {α : Type} (storeMax : Nat) (es : List α) :
    (es.foldl (pushRecent storeMax) []).length ≤ storeMax
    ∧ es.foldl (pushRecent storeMax) [] = es.drop (es.length - storeMax)
    ∧ ∀ (buf : List α) (e : α), buf.length ≤ storeMax →
        pushRecent storeMax buf e = (buf ++ [e]).drop (buf.length + 1 - storeMax) := by
  have hfold := foldl_pushRecent storeMax es [] (by simp)
  simp only [List.nil_append, List.length_nil, Nat.zero_add] at hfold
  refine ⟨?_, hfold, ?_⟩
  · rw [hfold]
    simp only [List.length_drop]
    omega
  · intro buf e hb
    have h1 := foldl_pushRecent storeMax [e] buf hb
    simpa using h1

/-- Witness for C4's FIFO single-step clause at a concrete buffer. -/
theorem pushRecent_ring_buffer_witness :
    pushRecent 2 [9, 8] 7 = (([9, 8] : List Nat) ++ [7]).drop (2 + 1 - 2) :=
  (pushRecent_ring_buffer 2 ([] : List Nat)).2.2 [9, 8] 7 (by decide)

/-- C5: when the mock table has an entry for the request path, the
dispatcher serves exactly that entry's status, headers and body, and no
forwarding to any upstream occurs. -/
theorem mock_precedence (mocks : List (String × MockEntry)) (host url : String)
    (m : MockEntry) (h : lookupKV mocks (pathOf url) = some m) :
    dispatch mocks host url = Outcome.mock m.status m.headers m.body
    ∧ ∀ t, dispatch mocks host url ≠ Outcome.forward t := by
  constructor
  · simp [dispatch, h]
  · intro t
    simp [dispatch, h]

/-- Witness for C5 with a concretely installed mock. -/
theorem mock_precedence_witness :
    dispatch [("/bcw3d", { status := 201, headers := [("a", "b")], body := "mk" })]
        "bcwserver.com" "/bcw3d"
      = Outcome.mock 201 [("a", "b")] "mk" :=
  (mock_precedence [("/bcw3d", { status := 201, headers := [("a", "b")], body := "mk" })]
    "bcwserver.com" "/bcw3d" { status := 201, headers := [("a", "b")], body := "mk" }
    (by decide)).1

/-! ### Path-keying of the mock table (C9) -/

theorem pathOf_append_query (p qs : String)
    (hp : p.data.all (fun c => c != '?') = true) :
    pathOf (p ++ "?" ++ qs) = p := by
  have hdata : (p ++ "?" ++ qs).data = p.data ++ '?' :: qs.data := by
    simp [String.data_append]
  have hall : ∀ c ∈ p.data, (c != '?') = true := by
    simpa [List.all_eq_true] using hp
  unfold pathOf
  rw [hdata, List.takeWhile_append_of_pos hall]
  simp [List.takeWhile_cons]

theorem pathOf_no_query_mark (url : String) : ¬ '?' ∈ (pathOf url).data := by
  intro h
  have h2 := List.mem_takeWhile_imp h
  simp at h2

/-- C9: mock lookup keys on the path with the query string excluded — a
request whose path equals an installed key is served that mock for every
appended query string, and a key with an embedded `?` can never equal any
request's path, so such a mock is never matched. -/
theorem mock_path_keying :
    (∀ (mocks : List (String × MockEntry)) (host p qs : String) (m : MockEntry),
        p.data.all (fun c => c != '?') = true →
        lookupKV mocks p = some m →
        dispatch mocks host (p ++ "?" ++ qs)
          = Outcome.mock m.status m.headers m.body)
    ∧ (∀ (k url : String), '?' ∈ k.data → pathOf url ≠ k) := by
  constructor
  · intro mocks host p qs m hp hm
    rw [dispatch, pathOf_append_query p qs hp, hm]
  · intro k url hk he
    apply pathOf_no_query_mark url
    rw [he]
    exact hk

/-- Witness for C9 at concrete paths. -/
theorem mock_path_keying_witness :
    dispatch [("/bcw3d", { status := 200, headers := [], body := "x" })]
        "h" ("/bcw3d" ++ "?" ++ "p=1")
      = Outcome.mock 200 [] "x"
    ∧ pathOf "/a?b" ≠ "/a?b" :=
  ⟨mock_path_keying.1 [("/bcw3d", { status := 200, headers := [], body := "x" })]
      "h" "/bcw3d" "p=1" { status := 200, headers := [], body := "x" }
      (by decide) (by decide),
    mock_path_keying.2 "/a?b" "/a?b" (by decide)⟩

/-! ### Admin validation (C8) -/

/-- C8 counterexample: "when `path` is present the mock is installed and
`ok:true` returned" fails — a present-but-empty `path` is rejected with
400 and nothing installed, because the handler tests JS truthiness. -/
theorem adminSetMock_claim_counterexample :
    ¬ (∀ (mocks : List (String × MockEntry)) (b : AdminMockBody) (p : String),
        b.path = some p → (adminSetMock mocks b).2 = AdminResp.okTrue) := by
  intro h
  have h2 := h [] { path := some "", status := none, headers := none, body := none }
    "" rfl
  exact absurd h2 (by decide)

/-- C8 amended: a mock-set or mock-clear request whose `path` is absent
or empty is answered 400 with the mock table completely unchanged; when
`path` is present and non-empty, `/_admin/mock` installs or overwrites
the entry and answers ok. -/
theorem adminMock_validation (mocks : List (String × MockEntry)) (b : AdminMockBody) :
    (truthyOpt b.path = false →
        adminSetMock mocks b = (mocks, AdminResp.errMissingPath)
        ∧ adminClearMock mocks b = (mocks, AdminResp.errMissingPath)
        ∧ respStatus (adminSetMock mocks b).2 = 400)
    ∧ (∀ p, b.path = some p → p ≠ "" →
        adminSetMock mocks b = (setKV mocks p (entryOf b), AdminResp.okTrue)
        ∧ respStatus (adminSetMock mocks b).2 = 200) := by
  constructor
  · intro h
    cases hp : b.path with
    | none => simp [adminSetMock, adminClearMock, hp, respStatus]
    | some p =>
      rw [hp] at h
      simp only [truthyOpt, bne_eq_false_iff_eq] at h
      subst h
      simp [adminSetMock, adminClearMock, hp, respStatus]
  · intro p hp hne
    simp [adminSetMock, hp, hne, respStatus]

/-- Witness for C8's amended claim: a missing path and a valid install. -/
theorem adminMock_validation_witness :
    (adminSetMock [] ⟨none, none, none, none⟩ = ([], AdminResp.errMissingPath))
    ∧ adminSetMock [] ⟨some "/bcw3d", some 201, none, some "ok"⟩
      = (setKV [] "/bcw3d" (entryOf ⟨some "/bcw3d", some 201, none, some "ok"⟩),
          AdminResp.okTrue) :=
  ⟨((adminMock_validation [] ⟨none, none, none, none⟩).1 (by decide)).1,
    ((adminMock_validation [] ⟨some "/bcw3d", some 201, none, some "ok"⟩).2
      "/bcw3d" rfl (by decide)).1⟩

/-- C1: the body returned to the client is the upstream body with the
three substitutions applied in order exactly when the original client
was classified Android, the body is non-empty, and the content-type
contains "application/json" or "text/"; otherwise it is identical to
the upstream body. -/
theorem response_normalizer (verbose android : Bool) (ct body : List Char) :
    (onProxyRes verbose android ct body).clientBody =
      if android && !body.isEmpty && isTextualCT ct then rewriteBody body
      else body := by
  cases android <;> cases hb : body.isEmpty <;> cases htc : isTextualCT ct <;>
    simp [onProxyRes, hb, htc]

/-! ### Divergence framework for C10

`rewriteBody` is a composition of three global replacements.  To show
that a changed body can never coincide with any stored prefix of the
original, we track, across the composition, a position where the input
and the output both continue with genuinely different characters. -/

/-- `s` and `t` agree on their first `i` characters and then both
continue, with the different characters `a` and `b`. -/
def DivAt (s t : List Char) (i : Nat) (a b : Char) : Prop :=
  s.take i = t.take i ∧ s[i]? = some a ∧ t[i]? = some b ∧ a ≠ b

/-- Divergence as produced by the three passes of `rewriteBody`: the
input side continues with a (case-folded) `i`, the output side with a
character folding to `a` or `p` (from "_android.json", "Android",
"Pixel 6").  The disjoint character classes make divergences at equal
positions impossible, so `PDiv` composes. -/
def PDiv (s t : List Char) : Prop :=
  ∃ i a b, DivAt s t i a b ∧ a.toLower = 'i'
    ∧ (b.toLower = 'a' ∨ b.toLower = 'p')

theorem take_eq_of_take_eq {s t : List Char} {n i : Nat}
    (h : s.take n = t.take n) (hi : i ≤ n) : s.take i = t.take i := by
  have h1 : s.take i = (s.take n).take i := by
    rw [List.take_take, Nat.min_eq_left hi]
  have h2 : t.take i = (t.take n).take i := by
    rw [List.take_take, Nat.min_eq_left hi]
  rw [h1, h2, h]

theorem getElem?_eq_of_take_eq {s t : List Char} {n i : Nat}
    (h : s.take n = t.take n) (hi : i < n) : s[i]? = t[i]? := by
  rw [← List.getElem?_take_of_lt (l := s) hi, ← List.getElem?_take_of_lt (l := t) hi, h]

theorem getElem?_append_middle (u v : List Char) (a : Char) :
    (u ++ a :: v)[u.length]? = some a := by
  rw [List.getElem?_append_right (Nat.le_refl _)]
  simp

/-- The common-prefix-then-disagree relation composes, given that the
character classes at the two divergence points are incompatible. -/
theorem pdiv_trans {s t u : List Char} (h1 : PDiv s t) (h2 : PDiv t u) :
    PDiv s u := by
  obtain ⟨i, a, b, ⟨hT1, hsa, htb, hab⟩, hai, hb⟩ := h1
  obtain ⟨j, c, d, ⟨hT2, htc, hud, hcd⟩, hci, hd⟩ := h2
  rcases Nat.lt_trichotomy i j with hij | hij | hij
  · refine ⟨i, a, b, ⟨?_, hsa, ?_, hab⟩, hai, hb⟩
    · rw [hT1, take_eq_of_take_eq hT2 (Nat.le_of_lt hij)]
    · rw [← getElem?_eq_of_take_eq hT2 hij]
      exact htb
  · subst hij
    rw [htb] at htc
    have hbc : b = c := Option.some.inj htc
    subst hbc
    rw [hci] at hb
    rcases hb with hb | hb <;> exact absurd hb (by decide)
  · refine ⟨j, c, d, ⟨?_, ?_, hud, hcd⟩, hci, hd⟩
    · rw [take_eq_of_take_eq hT1 (Nat.le_of_lt hij), hT2]
    · rw [getElem?_eq_of_take_eq hT1 hij]
      exact htc

/-- A list diverging from `s` (in the `DivAt` sense) is never a `take`
of `s`: at the divergence point it disagrees with `s`, and it is too
long to have ended before that point. -/
theorem pdiv_ne_take {s t : List Char} (h : PDiv s t) (n : Nat) :
    t ≠ s.take n := by
  obtain ⟨i, a, b, ⟨hT, hsa, htb, hab⟩, _, _⟩ := h
  intro he
  rcases Nat.lt_or_ge i n with hin | hin
  · rw [he] at htb
    rw [List.getElem?_take_of_lt hin, hsa] at htb
    exact hab (Option.some.inj htb)
  · have hlen : t.length ≤ i := by
      rw [he]
      exact Nat.le_trans (List.length_take_le n s) hin
    rw [List.getElem?_eq_none hlen] at htb
    exact Option.noConfusion htb

/-- Opposite sides of an append with differing middle characters diverge. -/
theorem divAt_append (u v w : List Char) (a b : Char) (hab : a ≠ b) :
    DivAt (u ++ a :: v) (u ++ b :: w) u.length a b :=
  ⟨by rw [List.take_left' rfl, List.take_left' rfl],
    getElem?_append_middle u v a, getElem?_append_middle u w b, hab⟩

theorem matchL_cons_inv {ci : Bool} {p : Char} {ps v : List Char}
    (h : matchL ci (p :: ps) v = true) :
    ∃ c cs, v = c :: cs ∧ charMatch ci p c = true ∧ matchL ci ps cs = true := by
  cases v with
  | nil => simp [matchL] at h
  | cons c cs =>
    simp only [matchL, Bool.and_eq_true] at h
    exact ⟨c, cs, rfl, h.1, h.2⟩

/-- Structure of one global replacement: either nothing matched and the
input is returned unchanged, or the result is the input's prefix up to
some match, the replacement, and a rewritten remainder. -/
theorem replFuel_split (ci : Bool) (pat repl : List Char) :
    ∀ (fuel : Nat) (s : List Char),
      replFuel ci pat repl fuel s = s ∨
      ∃ u v w, s = u ++ v ∧ matchL ci pat v = true ∧
        replFuel ci pat repl fuel s = u ++ (repl ++ w) := by
  intro fuel
  induction fuel with
  | zero =>
    intro s
    left
    cases s <;> rfl
  | succ f ih =>
    intro s
    cases s with
    | nil => left; rfl
    | cons c rest =>
      by_cases hm : matchL ci pat (c :: rest) = true
      · right
        exact ⟨[], c :: rest, replFuel ci pat repl f ((c :: rest).drop pat.length),
          rfl, hm, by simp [replFuel, hm]⟩
      · rcases ih rest with h | ⟨u, v, w, hs, hmv, hr⟩
        · left
          simp [replFuel, hm, h]
        · right
          exact ⟨c :: u, v, w, by rw [hs, List.cons_append], hmv,
            by simp [replFuel, hm, hr]⟩

/-- A case-insensitive replacement whose pattern head folds to `i` and
whose replacement head folds to `a` or `p` diverges from its input
whenever it changes it. -/
theorem replace_pdiv_head (p0 : Char) (ps : List Char) (r0 : Char) (rs : List Char)
    (hp0 : p0.toLower = 'i') (hr0 : r0.toLower = 'a' ∨ r0.toLower = 'p')
    (s : List Char) (h : replaceAllG true (p0 :: ps) (r0 :: rs) s ≠ s) :
    PDiv s (replaceAllG true (p0 :: ps) (r0 :: rs) s) := by
  rcases replFuel_split true (p0 :: ps) (r0 :: rs) s.length s with he | hsplit
  · exact absurd he h
  · obtain ⟨u, v, w, hs, hm, hr⟩ := hsplit
    obtain ⟨c, cs, hv, hcm, _⟩ := matchL_cons_inv hm
    have hpc : p0.toLower = c.toLower := by simpa [charMatch] using hcm
    have hcl : c.toLower = 'i' := by rw [← hpc, hp0]
    have hcr : c ≠ r0 := by
      intro he2
      subst he2
      rcases hr0 with h0 | h0 <;> exact absurd (h0.symm.trans hcl) (by decide)
    subst hv
    have hr2 : replaceAllG true (p0 :: ps) (r0 :: rs) s = u ++ ((r0 :: rs) ++ w) := hr
    rw [hr2, hs]
    exact ⟨u.length, c, r0, divAt_append u cs (rs ++ w) c r0 hcr, hcl, hr0⟩

/-- The `_ios.json` → `_android.json` pass diverges from its input
whenever it changes it (at the second character of a match). -/
theorem replace_pdiv_ios (s : List Char)
    (h : replaceAllG false (S "_ios.json") (S "_android.json") s ≠ s) :
    PDiv s (replaceAllG false (S "_ios.json") (S "_android.json") s) := by
  rcases replFuel_split false (S "_ios.json") (S "_android.json") s.length s
    with he | hsplit
  · exact absurd he h
  · obtain ⟨u, v, w, hs, hm, hr⟩ := hsplit
    have hm0 : matchL false ('_' :: 'i' :: S "os.json") v = true := hm
    obtain ⟨c0, v1, hv0, hcm0, hm1⟩ := matchL_cons_inv hm0
    obtain ⟨c1, v2, hv1, hcm1, _⟩ := matchL_cons_inv hm1
    have hc0 : c0 = '_' := by
      have := by simpa [charMatch] using hcm0
      exact this.symm
    have hc1 : c1 = 'i' := by
      have := by simpa [charMatch] using hcm1
      exact this.symm
    subst hv0 hv1 hc0 hc1
    have hdiv := divAt_append (u ++ ['_']) v2 (S "ndroid.json" ++ w) 'i' 'a'
      (by decide)
    have e1 : (u ++ ['_']) ++ 'i' :: v2 = u ++ '_' :: 'i' :: v2 := by simp
    have e2 : (u ++ ['_']) ++ 'a' :: (S "ndroid.json" ++ w)
        = u ++ (S "_android.json" ++ w) := by
      have : S "_android.json" = '_' :: 'a' :: S "ndroid.json" := rfl
      rw [this]
      simp
    rw [e1, e2] at hdiv
    have hr2 : replaceAllG false (S "_ios.json") (S "_android.json") s
        = u ++ (S "_android.json" ++ w) := hr
    rw [hr2, hs]
    exact ⟨(u ++ ['_']).length, 'i', 'a', hdiv, by decide, Or.inl (by decide)⟩

/-- One composition step: a divergence-or-equality from `b` to `x`
extends through a pass from `x` to `y`. -/
theorem pdiv_extend {b x y : List Char} (d : PDiv b x ∨ x = b)
    (hxy : y ≠ x → PDiv x y) : PDiv b y ∨ y = b := by
  rcases d with hp | he
  · by_cases h : y = x
    · left
      rw [h]
      exact hp
    · left
      exact pdiv_trans hp (hxy h)
  · by_cases h : y = x
    · right
      rw [h, he]
    · left
      have h2 := hxy h
      rw [he] at h2
      exact h2

/-- Whenever `rewriteBody` changes a body, input and output share a
common prefix and then disagree at a position present in both. -/
theorem rewriteBody_pdiv (b : List Char) (h : rewriteBody b ≠ b) :
    PDiv b (rewriteBody b) := by
  have step1 := pdiv_extend (b := b) (x := b)
    (y := replaceAllG false (S "_ios.json") (S "_android.json") b)
    (Or.inr rfl) (replace_pdiv_ios b)
  have step2 := pdiv_extend step1
    (replace_pdiv_head 'i' (S "phone os") 'A' (S "ndroid") (by decide)
      (Or.inl (by decide))
      (replaceAllG false (S "_ios.json") (S "_android.json") b))
  have step3 := pdiv_extend step2
    (replace_pdiv_head 'i' (S "pad") 'P' (S "ixel 6") (by decide)
      (Or.inr (by decide))
      (replaceAllG true (S "iphone os") (S "Android")
        (replaceAllG false (S "_ios.json") (S "_android.json") b)))
  rcases step3 with hp | he
  · exact hp
  · exact absurd he h

theorem onProxyRes_snippet_take (verbose android : Bool) (ct body : List Char) :
    ∃ n, (onProxyRes verbose android ct body).snippet = body.take n := by
  cases verbose with
  | true => exact ⟨2000, by simp [onProxyRes]⟩
  | false =>
    cases hb : body.isEmpty with
    | true =>
      refine ⟨0, ?_⟩
      simp [onProxyRes, hb]
    | false => exact ⟨500, by simp [onProxyRes, hb]⟩

/-- C10: the ring-buffer entry's `responseBodySnippet` is a prefix of
the body exactly as received from the upstream, recorded before the
Android reverse-substitution; hence whenever the substitution changes
the body of an Android client's textual response, the stored snippet
differs from the body the client received. -/
theorem snippet_records_prerewrite_body (verbose android : Bool)
    (ct body : List Char) :
    (∃ n, (onProxyRes verbose android ct body).snippet = body.take n)
    ∧ (android = true → isTextualCT ct = true → rewriteBody body ≠ body →
        (onProxyRes verbose android ct body).snippet
          ≠ (onProxyRes verbose android ct body).clientBody) := by
  refine ⟨onProxyRes_snippet_take verbose android ct body, ?_⟩
  intro ha htc hne
  have hbne : body ≠ [] := by
    intro hb
    rw [hb] at hne
    exact hne rfl
  have hie : body.isEmpty = false := by
    cases body with
    | nil => exact absurd rfl hbne
    | cons c t => rfl
  have hcb : (onProxyRes verbose android ct body).clientBody = rewriteBody body := by
    simp [onProxyRes, ha, htc, hie]
  obtain ⟨n, hsn⟩ := onProxyRes_snippet_take verbose android ct body
  have hk := pdiv_ne_take (rewriteBody_pdiv body hne) n
  intro heq
  rw [hcb, hsn] at heq
  exact hk heq.symm

/-- Witness for C10 at a concrete rewritten Android response. -/
theorem snippet_records_prerewrite_body_witness :
    (onProxyRes false true (S "application/json") (S "os ipad v1")).snippet
      ≠ (onProxyRes false true (S "application/json") (S "os ipad v1")).clientBody :=
  (snippet_records_prerewrite_body false true (S "application/json")
    (S "os ipad v1")).2 rfl (by decide) (by decide)

end Gateway
